import Mathlib

/-!
# College appointment system: availability and booking handlers

A shallow embedding of the four state-changing request handlers of
`controllers/availabilityController.js` and `controllers/appointmentController.js`
over the two Mongoose collections declared in `models/Availability.js` and
`models/Appointment.js`, followed by the properties proved about them.

Conventions of the embedding:

* user ids and document ids (`ObjectId`) are natural numbers; a collection is
  the list of its documents in insertion order and the store carries the next
  unused document id, so that `create` always draws an id never used before;
* instants (`Date`) are integers, compared as JavaScript compares dates; they
  reach the handlers as ISO strings, as in `tests/appointment.test.js`, so a
  field that is present is never falsy;
* a request field that may be missing from the body is an `Option`;
* the clock read by `new Date()` is an explicit argument `now`;
* every handler returns the new store together with what it hands to the
  client: `Except.ok doc` for the `res.status(..).json` answers and
  `Except.error e` for `next(new ErrorResponse ..)` and `next(error)`;
* the `fault` argument names the awaited store call of the handler (counted
  from 0 in source order) that rejects, if any; `none` is a run in which every
  store call resolves;
* `populate` only decorates the answer with user documents and is not modelled
  beyond its being an awaited call; `timestamps` are left out.
-/

namespace CollegeAppointment

/-! ## Data model -/

/-- Values of the `status` field of `appointmentSchema`. -/
inductive Status where
  | scheduled
  | cancelled
  | completed
deriving DecidableEq, Repr

/-- Document of the `Availability` collection (`models/Availability.js`). -/
structure Availability where
  _id : Nat
  professor : Nat
  startTime : Int
  endTime : Int
  isBooked : Bool
  bookedBy : Option Nat
deriving DecidableEq, Repr

/-- Document of the `Appointment` collection (`models/Appointment.js`). -/
structure Appointment where
  _id : Nat
  student : Nat
  professor : Nat
  availabilitySlot : Nat
  appointmentTime : Int
  status : Status
  cancelledBy : Option Nat
  cancellationReason : Option String
deriving DecidableEq, Repr

/-- Errors handed to `next`. Each constructor is one `ErrorResponse` of the
controllers; `storeError` is an exception of a store call caught by the
handler's `catch` and passed on unchanged. -/
inductive Err where
  /-- Status 400, message: Please provide availability ID. -/
  | missingAvailabilityId
  /-- Status 404, message: Availability slot not found (the spec's NotFound). -/
  | slotNotFound
  /-- Status 400, message: This time slot is already booked (AlreadyBooked). -/
  | alreadyBooked
  /-- Status 400, message: Cannot book past time slots (PastSlot). -/
  | pastSlot
  /-- Status 404, message: Appointment not found or already cancelled (NotFound). -/
  | appointmentNotFound
  /-- Status 400, message: Please provide start time and end time. -/
  | missingTimes
  /-- Status 400, message: End time must be after start time (InvalidRange). -/
  | invalidRange
  /-- Status 400, message: Time slot overlaps with existing availability
  (OverlapConflict). -/
  | overlapConflict
  /-- Status 400, message: Cannot delete booked availability slot (WindowBooked). -/
  | windowBooked
  /-- Rejection of an awaited store call, forwarded by `next(error)`. -/
  | storeError
deriving DecidableEq, Repr

deriving instance DecidableEq for Except

/-- The HTTP status passed to `ErrorResponse`. -/
def Err.statusCode : Err → Nat
  | .slotNotFound => 404
  | .appointmentNotFound => 404
  | .storeError => 500
  | _ => 400

/-- The two collections and the next unused document id. -/
structure Store where
  availabilities : List Availability
  appointments : List Appointment
  nextId : Nat
deriving DecidableEq, Repr

/-- The store after `deleteMany({})` on both collections. -/
def emptyStore : Store := { availabilities := [], appointments := [], nextId := 0 }

/-! ## Store calls -/

/-- `Availability.findById(id)`. -/
def Availability.findById (docs : List Availability) (id : Nat) : Option Availability :=
  docs.find? (fun w => decide (w._id = id))

/-- The write sent by `availability.save()` and by `findByIdAndUpdate`: the
fields `isBooked` and `bookedBy` are set on the document with this `_id`
(`_id` is unique in a collection, so at most one document is touched; in the
runs considered here the saved document is still in the collection). -/
def Availability.setBooking (docs : List Availability) (id : Nat) (isBooked : Bool)
    (bookedBy : Option Nat) : List Availability :=
  docs.map (fun w => if w._id = id then { w with isBooked := isBooked, bookedBy := bookedBy } else w)

/-- `Availability.findByIdAndDelete(id)`. -/
def Availability.findByIdAndDelete (docs : List Availability) (id : Nat) : List Availability :=
  docs.filter (fun w => decide (w._id ≠ id))

/-- The filter of `createAvailability`: a slot of this professor with
`startTime < endTime'` and `endTime > startTime'`. -/
def overlapsQuery (user : Nat) (startTime endTime : Int) (w : Availability) : Bool :=
  decide (w.professor = user) && decide (w.startTime < endTime) && decide (w.endTime > startTime)

/-- The filter of `cancelAppointment`: `_id`, `professor` and
`status: scheduled`. -/
def cancelQuery (id user : Nat) (a : Appointment) : Bool :=
  decide (a._id = id) && decide (a.professor = user) && decide (a.status = Status.scheduled)

/-- The expression `reason || DEFAULT` of `cancelAppointment`: a missing
reason and the empty string are falsy. -/
def reasonOrDefault : Option String → String
  | none => "Cancelled by professor"
  | some r => if r = "" then "Cancelled by professor" else r

/-- The write sent by `appointment.save()` in `cancelAppointment`: the three
modified fields are set on the document with this `_id`. -/
def Appointment.setCancelled (docs : List Appointment) (id user : Nat) (reason : String) :
    List Appointment :=
  docs.map (fun a =>
    if a._id = id then
      { a with status := Status.cancelled, cancelledBy := some user,
               cancellationReason := some reason }
    else a)

/-! ## Handlers -/

/-- Handler `createAvailability` of `availabilityController.js`. Awaited store
calls: 0 `findOne`, 1 `create`, 2 `populate`. -/
def createAvailability (fault : Option Nat) (s : Store) (user : Nat)
    (startTime endTime : Option Int) : Store × Except Err Availability :=
  match startTime, endTime with
  | some st, some en =>
    if st ≥ en then (s, .error .invalidRange)
    else if fault = some 0 then (s, .error .storeError)
    else
      match s.availabilities.find? (overlapsQuery user st en) with
      | some _ => (s, .error .overlapConflict)
      | none =>
        if fault = some 1 then (s, .error .storeError)
        else
          let availability : Availability :=
            { _id := s.nextId, professor := user, startTime := st, endTime := en,
              isBooked := false, bookedBy := none }
          let s1 : Store :=
            { s with availabilities := s.availabilities ++ [availability],
                     nextId := s.nextId + 1 }
          if fault = some 2 then (s1, .error .storeError)
          else (s1, .ok availability)
  | _, _ => (s, .error .missingTimes)

/-- Handler `deleteAvailability` of `availabilityController.js`. Awaited store
calls: 0 `findOne`, 1 `findByIdAndDelete`. The answer carries no document. -/
def deleteAvailability (fault : Option Nat) (s : Store) (user : Nat) (id : Nat) :
    Store × Except Err Unit :=
  if fault = some 0 then (s, .error .storeError)
  else
    match s.availabilities.find? (fun w => decide (w._id = id) && decide (w.professor = user)) with
    | none => (s, .error .slotNotFound)
    | some availability =>
      if availability.isBooked then (s, .error .windowBooked)
      else if fault = some 1 then (s, .error .storeError)
      else
        ({ s with availabilities := Availability.findByIdAndDelete s.availabilities id }, .ok ())

/-- Handler `bookAppointment` of `appointmentController.js`. Awaited store
calls: 0 `findById`, 1 `Appointment.create`, 2 `availability.save`,
3 `populate`. -/
def bookAppointment (fault : Option Nat) (s : Store) (user : Nat)
    (availabilityId : Option Nat) (now : Int) : Store × Except Err Appointment :=
  match availabilityId with
  | none => (s, .error .missingAvailabilityId)
  | some id =>
    if fault = some 0 then (s, .error .storeError)
    else
      match Availability.findById s.availabilities id with
      | none => (s, .error .slotNotFound)
      | some availability =>
        if availability.isBooked then (s, .error .alreadyBooked)
        else if availability.startTime ≤ now then (s, .error .pastSlot)
        else if fault = some 1 then (s, .error .storeError)
        else
          let appointment : Appointment :=
            { _id := s.nextId, student := user, professor := availability.professor,
              availabilitySlot := id, appointmentTime := availability.startTime,
              status := Status.scheduled, cancelledBy := none, cancellationReason := none }
          let s1 : Store :=
            { s with appointments := s.appointments ++ [appointment],
                     nextId := s.nextId + 1 }
          if fault = some 2 then (s1, .error .storeError)
          else
            let s2 : Store :=
              { s1 with availabilities :=
                  Availability.setBooking s1.availabilities availability._id true (some user) }
            if fault = some 3 then (s2, .error .storeError)
            else (s2, .ok appointment)

/-- Handler `cancelAppointment` of `appointmentController.js`. Awaited store
calls: 0 `findOne`, 1 `appointment.save`, 2 `findByIdAndUpdate`, 3 `populate`.
The answer is the in-memory document after its three assignments. -/
def cancelAppointment (fault : Option Nat) (s : Store) (user : Nat) (id : Nat)
    (reason : Option String) : Store × Except Err Appointment :=
  if fault = some 0 then (s, .error .storeError)
  else
    match s.appointments.find? (cancelQuery id user) with
    | none => (s, .error .appointmentNotFound)
    | some appointment =>
      let cancelled : Appointment :=
        { appointment with status := Status.cancelled, cancelledBy := some user,
                           cancellationReason := some (reasonOrDefault reason) }
      if fault = some 1 then (s, .error .storeError)
      else
        let s1 : Store :=
          { s with appointments :=
              Appointment.setCancelled s.appointments cancelled._id user (reasonOrDefault reason) }
        if fault = some 2 then (s1, .error .storeError)
        else
          let s2 : Store :=
            { s1 with availabilities :=
                Availability.setBooking s1.availabilities cancelled.availabilitySlot false none }
          if fault = some 3 then (s2, .error .storeError)
          else (s2, .ok cancelled)

/-- The order `.sort({ startTime: 1 })`. -/
def startTimeAscending (w1 w2 : Availability) : Prop := w1.startTime ≤ w2.startTime

instance : DecidableRel startTimeAscending := by
  intro w1 w2; unfold startTimeAscending; infer_instance

/-- The order `.sort({ appointmentTime: -1 })`. -/
def appointmentTimeDescending (a1 a2 : Appointment) : Prop :=
  a2.appointmentTime ≤ a1.appointmentTime

instance : DecidableRel appointmentTimeDescending := by
  intro a1 a2; unfold appointmentTimeDescending; infer_instance

/-- Handler `getProfessorAvailability` of `availabilityController.js`: the
slots of `professorId` with `isBooked: false` and `startTime` after
`new Date()`, sorted by `startTime` ascending. The query is its one awaited
store call. The store leaves the order of documents with equal keys open; the
sort used here keeps them in collection order. -/
def getProfessorAvailability (fault : Option Nat) (s : Store) (professorId : Nat) (now : Int) :
    Store × Except Err (List Availability) :=
  if fault = some 0 then (s, .error .storeError)
  else
    (s, .ok ((s.availabilities.filter (fun w =>
        decide (w.professor = professorId) && decide (w.isBooked = false)
          && decide (w.startTime > now))).insertionSort startTimeAscending))

/-- Handler `getStudentAppointments` of `appointmentController.js`: the
appointments whose `student` is the caller, sorted by `appointmentTime`
descending. The query is its one awaited store call. -/
def getStudentAppointments (fault : Option Nat) (s : Store) (user : Nat) :
    Store × Except Err (List Appointment) :=
  if fault = some 0 then (s, .error .storeError)
  else
    (s, .ok ((s.appointments.filter (fun a => decide (a.student = user))).insertionSort
      appointmentTimeDescending))

/-! ## Reachable stores -/

/-- Stores reachable from the empty store by handler runs in which every store
call resolves, with any callers, arguments and clock values. -/
inductive Reachable : Store → Prop where
  | empty : Reachable emptyStore
  | createWindow {s : Store} (user : Nat) (startTime endTime : Option Int) :
      Reachable s → Reachable (createAvailability none s user startTime endTime).1
  | deleteWindow {s : Store} (user id : Nat) :
      Reachable s → Reachable (deleteAvailability none s user id).1
  | book {s : Store} (user : Nat) (availabilityId : Option Nat) (now : Int) :
      Reachable s → Reachable (bookAppointment none s user availabilityId now).1
  | cancel {s : Store} (user id : Nat) (reason : Option String) :
      Reachable s → Reachable (cancelAppointment none s user id reason).1

/-- Number of scheduled appointments whose `availabilitySlot` is `id`. -/
def scheduledCount (s : Store) (id : Nat) : Nat :=
  (s.appointments.filter
    (fun a => decide (a.status = Status.scheduled) && decide (a.availabilitySlot = id))).length

/-! ## Interleaved runs of `bookAppointment` -/

/-- Progress of one run of `bookAppointment`: the handler yields at each
awaited store call, so a run is a sequence of three store operations
(`findById`, `Appointment.create`, `availability.save`), each followed by the
synchronous code up to the next `await`. The constructors record the local
variables that are live at each point. -/
inductive BookRun where
  /-- Before the `findById` call. -/
  | start (user : Nat) (availabilityId : Option Nat)
  /-- After `findById` and the three guards, before `Appointment.create`. -/
  | fetched (user id : Nat) (availability : Availability)
  /-- After `Appointment.create`, before `availability.save`. -/
  | created (user : Nat) (availability : Availability) (appointment : Appointment)
  /-- After the answer was handed to `res` or to `next`. -/
  | done (result : Except Err Appointment)
deriving DecidableEq, Repr

/-- One store operation of a run of `bookAppointment` together with the
synchronous code that follows it, `now` being the value of `new Date()`. -/
def bookStep (now : Int) (s : Store) : BookRun → Store × BookRun
  | .start _ none => (s, .done (.error .missingAvailabilityId))
  | .start user (some id) =>
    match Availability.findById s.availabilities id with
    | none => (s, .done (.error .slotNotFound))
    | some availability =>
      if availability.isBooked then (s, .done (.error .alreadyBooked))
      else if availability.startTime ≤ now then (s, .done (.error .pastSlot))
      else (s, .fetched user id availability)
  | .fetched user id availability =>
    let appointment : Appointment :=
      { _id := s.nextId, student := user, professor := availability.professor,
        availabilitySlot := id, appointmentTime := availability.startTime,
        status := Status.scheduled, cancelledBy := none, cancellationReason := none }
    ({ s with appointments := s.appointments ++ [appointment], nextId := s.nextId + 1 },
      .created user availability appointment)
  | .created user availability appointment =>
    ({ s with availabilities :=
        Availability.setBooking s.availabilities availability._id true (some user) },
      .done (.ok appointment))
  | .done result => (s, .done result)

/-- Which of two concurrent runs performs the next store operation. -/
inductive Turn where
  | first
  | second
deriving DecidableEq, Repr

/-- Two runs of `bookAppointment` over one store, advanced in the order given
by the schedule. -/
def interleave (now : Int) : List Turn → Store × BookRun × BookRun → Store × BookRun × BookRun
  | [], c => c
  | Turn.first :: rest, (s, a, b) =>
    interleave now rest ((bookStep now s a).1, (bookStep now s a).2, b)
  | Turn.second :: rest, (s, a, b) =>
    interleave now rest ((bookStep now s b).1, a, (bookStep now s b).2)

/-- The run has answered with an appointment. -/
def BookRun.succeeded : BookRun → Bool
  | .done (.ok _) => true
  | _ => false

/-- A schedule that gives each of the two runs exactly its three store
operations. -/
def completeSchedule (sched : List Turn) : Prop :=
  sched.count Turn.first = 3 ∧ sched.count Turn.second = 3

instance (sched : List Turn) : Decidable (completeSchedule sched) := by
  unfold completeSchedule; infer_instance

/-- The two schedules in which one run ends before the other begins. -/
def sequential (sched : List Turn) : Prop :=
  sched = [Turn.first, Turn.first, Turn.first, Turn.second, Turn.second, Turn.second] ∨
  sched = [Turn.second, Turn.second, Turn.second, Turn.first, Turn.first, Turn.first]

instance (sched : List Turn) : Decidable (sequential sched) := by
  unfold sequential; infer_instance

/-! ## Sample stores -/

/-- Professor 7 has published the slot from 10 to 20. -/
def storeFree : Store := (createAvailability none emptyStore 7 (some 10) (some 20)).1

/-- Student 3 has booked that slot at time 5. -/
def storeBooked : Store := (bookAppointment none storeFree 3 (some 0) 5).1

/-- Professor 7 has published the adjacent slots from 10 to 20 and from 20 to 30. -/
def storeTwoSlots : Store := (createAvailability none storeFree 7 (some 20) (some 30)).1

/-- Professor 7 has cancelled that booking. -/
def storeCancelled : Store :=
  (cancelAppointment none storeBooked 7 1 (some "Emergency meeting")).1

/-! ## Invariant -/

/-- Two slots overlap as in the query of `createAvailability`. -/
def overlaps (w1 w2 : Availability) : Prop :=
  w1.startTime < w2.endTime ∧ w2.startTime < w1.endTime

/-- Well-formedness and consistency of a store. -/
structure Inv (s : Store) : Prop where
  availLt : ∀ w ∈ s.availabilities, w._id < s.nextId
  apptLt : ∀ a ∈ s.appointments, a._id < s.nextId
  slotLt : ∀ a ∈ s.appointments, a.availabilitySlot < s.nextId
  availNodup : (s.availabilities.map (fun w => w._id)).Nodup
  apptNodup : (s.appointments.map (fun a => a._id)).Nodup
  count : ∀ w ∈ s.availabilities, scheduledCount s w._id = if w.isBooked then 1 else 0
  slotExists : ∀ a ∈ s.appointments, a.status = Status.scheduled →
    ∃ w ∈ s.availabilities, w._id = a.availabilitySlot
  range : ∀ w ∈ s.availabilities, w.startTime < w.endTime
  noOverlap : s.availabilities.Pairwise
    (fun w1 w2 => w1.professor = w2.professor → ¬ overlaps w1 w2)

/-! ## Lemmas on the store calls -/

theorem findById_some {docs : List Availability} {id : Nat} {w : Availability}
    (h : Availability.findById docs id = some w) : w ∈ docs ∧ w._id = id := by
  unfold Availability.findById at h
  exact ⟨List.mem_of_find?_eq_some h, by simpa using List.find?_some h⟩

theorem findById_none {docs : List Availability} {id : Nat}
    (h : Availability.findById docs id = none) : ∀ w ∈ docs, w._id ≠ id := by
  unfold Availability.findById at h
  intro w hw
  simpa using (List.find?_eq_none.mp h) w hw

theorem mem_setBooking {docs : List Availability} {id : Nat} {b : Bool} {u : Option Nat}
    {w : Availability} (h : w ∈ Availability.setBooking docs id b u) :
    ∃ v ∈ docs, w = (if v._id = id then { v with isBooked := b, bookedBy := u } else v) := by
  unfold Availability.setBooking at h
  obtain ⟨v, hv, rfl⟩ := List.mem_map.mp h
  exact ⟨v, hv, rfl⟩

theorem setBooking_ids (docs : List Availability) (id : Nat) (b : Bool) (u : Option Nat) :
    (Availability.setBooking docs id b u).map (fun w => w._id) = docs.map (fun w => w._id) := by
  unfold Availability.setBooking
  rw [List.map_map]
  apply List.map_congr_left
  intro w _
  by_cases h : w._id = id <;> simp [h]

theorem setBooking_pairwise {R : Availability → Availability → Prop}
    (hR : ∀ (v1 v2 : Availability) (b1 b2 : Bool) (u1 u2 : Option Nat), R v1 v2 →
      R { v1 with isBooked := b1, bookedBy := u1 } v2 ∧
      R v1 { v2 with isBooked := b2, bookedBy := u2 } ∧
      R { v1 with isBooked := b1, bookedBy := u1 } { v2 with isBooked := b2, bookedBy := u2 })
    {docs : List Availability} (id : Nat) (b : Bool) (u : Option Nat)
    (h : docs.Pairwise R) : (Availability.setBooking docs id b u).Pairwise R := by
  unfold Availability.setBooking
  rw [List.pairwise_map]
  refine h.imp ?_
  intro v1 v2 h12
  obtain ⟨h1, h2, h3⟩ := hR v1 v2 b b u u h12
  by_cases e1 : v1._id = id <;> by_cases e2 : v2._id = id
  · rw [if_pos e1, if_pos e2]; exact h3
  · rw [if_pos e1, if_neg e2]; exact h1
  · rw [if_neg e1, if_pos e2]; exact h2
  · rw [if_neg e1, if_neg e2]; exact h12

theorem mem_setCancelled {docs : List Appointment} {id user : Nat} {r : String}
    {a : Appointment} (h : a ∈ Appointment.setCancelled docs id user r) :
    ∃ b ∈ docs, a = (if b._id = id then
      { b with status := Status.cancelled, cancelledBy := some user,
               cancellationReason := some r } else b) := by
  unfold Appointment.setCancelled at h
  obtain ⟨b, hb, rfl⟩ := List.mem_map.mp h
  exact ⟨b, hb, rfl⟩

theorem setCancelled_ids (docs : List Appointment) (id user : Nat) (r : String) :
    (Appointment.setCancelled docs id user r).map (fun a => a._id)
      = docs.map (fun a => a._id) := by
  unfold Appointment.setCancelled
  rw [List.map_map]
  apply List.map_congr_left
  intro a _
  by_cases h : a._id = id <;> simp [h]

theorem cancelQuery_some {docs : List Appointment} {id user : Nat} {a : Appointment}
    (h : docs.find? (cancelQuery id user) = some a) :
    a ∈ docs ∧ a._id = id ∧ a.professor = user ∧ a.status = Status.scheduled := by
  have h2 := List.find?_some h
  simp only [cancelQuery, Bool.and_eq_true, decide_eq_true_eq] at h2
  exact ⟨List.mem_of_find?_eq_some h, h2.1.1, h2.1.2, h2.2⟩

theorem eq_of_mem_of_length_le_one {α : Type} {l : List α} {a b : α}
    (h : l.length ≤ 1) (ha : a ∈ l) (hb : b ∈ l) : a = b := by
  match l, h with
  | [], _ => simp at ha
  | [x], _ =>
    simp at ha hb
    rw [ha, hb]
  | x :: y :: t, h => simp at h

theorem findById_setBooking (docs : List Availability) (id : Nat) (b : Bool) (u : Option Nat) :
    Availability.findById (Availability.setBooking docs id b u) id =
      (Availability.findById docs id).map
        (fun w => { w with isBooked := b, bookedBy := u }) := by
  induction docs with
  | nil => rfl
  | cons v t ih =>
    unfold Availability.findById Availability.setBooking at ih ⊢
    by_cases e : v._id = id
    · simp [List.find?_cons, e]
    · simp only [List.map_cons, List.find?_cons, e, if_false, decide_False]
      exact ih

theorem findById_of_mem {docs : List Availability} {w : Availability}
    (hnd : (docs.map (fun v => v._id)).Nodup) (hw : w ∈ docs) :
    Availability.findById docs w._id = some w := by
  cases hf : Availability.findById docs w._id with
  | none => exact absurd rfl (findById_none hf w hw)
  | some v =>
    obtain ⟨hv, hid⟩ := findById_some hf
    rw [List.inj_on_of_nodup_map hnd hv hw hid]

theorem bookAppointment_of_free {s : Store} {id : Nat} {w : Availability} {now : Int}
    (fault : Option Nat) (user : Nat)
    (hf : Availability.findById s.availabilities id = some w) (hb : w.isBooked = false)
    (hp : now < w.startTime) (h0 : fault ≠ some 0) (h1 : fault ≠ some 1) :
    bookAppointment fault s user (some id) now =
      if fault = some 2 then
        ({ s with
            appointments := s.appointments ++
              [{ _id := s.nextId, student := user, professor := w.professor,
                 availabilitySlot := id, appointmentTime := w.startTime,
                 status := Status.scheduled, cancelledBy := none, cancellationReason := none }],
            nextId := s.nextId + 1 }, .error .storeError)
      else if fault = some 3 then
        ({ availabilities := Availability.setBooking s.availabilities w._id true (some user),
           appointments := s.appointments ++
             [{ _id := s.nextId, student := user, professor := w.professor,
                availabilitySlot := id, appointmentTime := w.startTime,
                status := Status.scheduled, cancelledBy := none, cancellationReason := none }],
           nextId := s.nextId + 1 }, .error .storeError)
      else
        ({ availabilities := Availability.setBooking s.availabilities w._id true (some user),
           appointments := s.appointments ++
             [{ _id := s.nextId, student := user, professor := w.professor,
                availabilitySlot := id, appointmentTime := w.startTime,
                status := Status.scheduled, cancelledBy := none, cancellationReason := none }],
           nextId := s.nextId + 1 },
         .ok { _id := s.nextId, student := user, professor := w.professor,
               availabilitySlot := id, appointmentTime := w.startTime,
               status := Status.scheduled, cancelledBy := none, cancellationReason := none }) := by
  have hp2 : ¬ w.startTime ≤ now := not_le.mpr hp
  simp only [bookAppointment, hf, hb, hp2, h0, h1, if_false, Bool.false_eq_true]

theorem cancelAppointment_of_found {s : Store} {id user : Nat} {a0 : Appointment}
    (fault : Option Nat) (reason : Option String)
    (hf : s.appointments.find? (cancelQuery id user) = some a0)
    (h0 : fault ≠ some 0) (h1 : fault ≠ some 1) :
    cancelAppointment fault s user id reason =
      if fault = some 2 then
        ({ s with appointments :=
            Appointment.setCancelled s.appointments a0._id user (reasonOrDefault reason) },
         .error .storeError)
      else if fault = some 3 then
        ({ s with
            availabilities :=
              Availability.setBooking s.availabilities a0.availabilitySlot false none,
            appointments :=
              Appointment.setCancelled s.appointments a0._id user (reasonOrDefault reason) },
         .error .storeError)
      else
        ({ s with
            availabilities :=
              Availability.setBooking s.availabilities a0.availabilitySlot false none,
            appointments :=
              Appointment.setCancelled s.appointments a0._id user (reasonOrDefault reason) },
         .ok { a0 with status := Status.cancelled, cancelledBy := some user,
                       cancellationReason := some (reasonOrDefault reason) }) := by
  simp only [cancelAppointment, hf, h0, h1, if_false]

theorem setCancelled_of_ne {docs : List Appointment} {id : Nat} (user : Nat) (r : String)
    (h : ∀ a ∈ docs, a._id ≠ id) : Appointment.setCancelled docs id user r = docs := by
  unfold Appointment.setCancelled
  conv_rhs => rw [← List.map_id docs]
  apply List.map_congr_left
  intro a ha
  simp [h a ha]

theorem find_cancelQuery_append_new {docs : List Appointment} {id user : Nat} {a : Appointment}
    (h : ∀ b ∈ docs, b._id ≠ id) (ha : cancelQuery id user a = true) :
    (docs ++ [a]).find? (cancelQuery id user) = some a := by
  have hn : docs.find? (cancelQuery id user) = none := by
    rw [List.find?_eq_none]
    intro b hb
    simp [cancelQuery, h b hb]
  simp [List.find?_append, hn, ha]

theorem scheduled_filter_setCancelled_nil {docs : List Appointment} {a0 : Appointment}
    (user : Nat) (r : String) (ha0 : a0 ∈ docs) (hst : a0.status = Status.scheduled)
    (hle : (docs.filter (fun a => decide (a.status = Status.scheduled)
      && decide (a.availabilitySlot = a0.availabilitySlot))).length ≤ 1) :
    (Appointment.setCancelled docs a0._id user r).filter
      (fun a => decide (a.status = Status.scheduled)
        && decide (a.availabilitySlot = a0.availabilitySlot)) = [] := by
  rw [List.filter_eq_nil_iff]
  intro a ha
  obtain ⟨b, hb, rfl⟩ := mem_setCancelled ha
  by_cases eb : b._id = a0._id
  · simp [eb]
  · simp only [eb, if_false]
    intro hp
    simp only [Bool.and_eq_true, decide_eq_true_eq] at hp
    have hba : b = a0 := by
      refine eq_of_mem_of_length_le_one hle ?_ ?_
      · exact List.mem_filter.mpr ⟨hb, by simp [hp.1, hp.2]⟩
      · exact List.mem_filter.mpr ⟨ha0, by simp [hst]⟩
    exact eb (by rw [hba])

/-! ## Preservation of the invariant -/

theorem inv_emptyStore : Inv emptyStore := by
  constructor <;> simp [emptyStore, scheduledCount]

theorem overlapsQuery_false {user : Nat} {st en : Int} {w : Availability}
    (h : overlapsQuery user st en w = false) (hp : w.professor = user) :
    ¬ (w.startTime < en ∧ st < w.endTime) := by
  intro hc
  simp [overlapsQuery, hp, hc.1, hc.2] at h

theorem createAvailability_inv {s : Store} (h : Inv s) (user : Nat)
    (startTime endTime : Option Int) :
    Inv (createAvailability none s user startTime endTime).1 := by
  unfold createAvailability
  split
  · rename_i st en
    by_cases hr : st ≥ en
    · simpa [hr] using h
    · cases hf : s.availabilities.find? (overlapsQuery user st en) with
      | some w => simpa [hr, hf] using h
      | none =>
        simp only [hr, hf, if_false, reduceCtorEq]
        have hq := List.find?_eq_none.mp hf
        constructor
        · intro w hw
          rcases List.mem_append.mp hw with hw | hw
          · exact Nat.lt_succ_of_lt (h.availLt w hw)
          · simp at hw; subst hw; simp
        · intro a ha
          exact Nat.lt_succ_of_lt (h.apptLt a ha)
        · intro a ha
          exact Nat.lt_succ_of_lt (h.slotLt a ha)
        · simp only [List.map_append, List.map_cons, List.map_nil]
          rw [List.nodup_append]
          refine ⟨h.availNodup, by simp, ?_⟩
          intro x hx hx2
          simp at hx2
          subst hx2
          obtain ⟨w, hw, hwx⟩ := List.mem_map.mp hx
          have := h.availLt w hw
          omega
        · exact h.apptNodup
        · intro w hw
          rcases List.mem_append.mp hw with hw | hw
          · exact h.count w hw
          · simp at hw; subst hw
            simp only [scheduledCount, Bool.false_eq_true, if_false, List.length_eq_zero,
              List.filter_eq_nil_iff]
            intro a ha
            have := h.slotLt a ha
            simp
            intro _
            omega
        · intro a ha hs
          obtain ⟨w, hw, hwa⟩ := h.slotExists a ha hs
          exact ⟨w, List.mem_append_left _ hw, hwa⟩
        · intro w hw
          rcases List.mem_append.mp hw with hw | hw
          · exact h.range w hw
          · simp at hw; subst hw; simpa using hr
        · show List.Pairwise _ (s.availabilities ++ _)
          rw [List.pairwise_append]
          refine ⟨h.noOverlap, by simp, ?_⟩
          intro w hw v hv
          simp at hv; subst hv
          intro hp
          have := overlapsQuery_false (by simpa using hq w hw) hp
          simpa [overlaps] using this
  · exact h

theorem deleteAvailability_inv {s : Store} (h : Inv s) (user id : Nat) :
    Inv (deleteAvailability none s user id).1 := by
  unfold deleteAvailability
  simp only [reduceCtorEq, if_false]
  split
  · exact h
  · rename_i w hw
    by_cases hb : w.isBooked = true
    · simpa [hb] using h
    · simp only [hb, if_false, Bool.false_eq_true]
      have hsub : (Availability.findByIdAndDelete s.availabilities id).Sublist s.availabilities :=
        List.filter_sublist _
      have hmem : ∀ v ∈ Availability.findByIdAndDelete s.availabilities id, v ∈ s.availabilities :=
        fun v hv => hsub.subset hv
      constructor
      · exact fun v hv => h.availLt v (hmem v hv)
      · exact h.apptLt
      · exact h.slotLt
      · exact h.availNodup.sublist (hsub.map _)
      · exact h.apptNodup
      · exact fun v hv => h.count v (hmem v hv)
      · intro a ha hs
        obtain ⟨v, hv, hva⟩ := h.slotExists a ha hs
        refine ⟨v, List.mem_filter.mpr ⟨hv, ?_⟩, hva⟩
        have hwm := List.mem_of_find?_eq_some hw
        have hwq := List.find?_some hw
        simp only [Bool.and_eq_true, decide_eq_true_eq] at hwq
        have hc0 := h.count w hwm
        simp only [hb, if_false, scheduledCount, List.length_eq_zero,
          List.filter_eq_nil_iff, Bool.false_eq_true] at hc0
        have := hc0 a ha
        simp only [hs, decide_True, Bool.true_and, decide_eq_true_eq] at this
        simp only [ne_eq, decide_not, Bool.not_eq_true', decide_eq_false_iff_not]
        intro h3
        exact this (by rw [← hva, h3, hwq.1])
      · exact fun v hv => h.range v (hmem v hv)
      · exact h.noOverlap.sublist hsub

theorem bookAppointment_inv {s : Store} (h : Inv s) (user : Nat) (availabilityId : Option Nat)
    (now : Int) : Inv (bookAppointment none s user availabilityId now).1 := by
  unfold bookAppointment
  cases availabilityId with
  | none => exact h
  | some id =>
    simp only [reduceCtorEq, if_false]
    cases hf : Availability.findById s.availabilities id with
    | none => exact h
    | some w =>
      obtain ⟨hwmem, hwid⟩ := findById_some hf
      by_cases hb : w.isBooked = true
      · simpa [hb] using h
      · by_cases hp : w.startTime ≤ now
        · simpa [hb, hp] using h
        · simp only [hb, hp, if_false, Bool.false_eq_true]
          subst hwid
          have hw0 : scheduledCount s w._id = 0 := by
            have := h.count w hwmem
            simpa [hb] using this
          constructor
          · intro v hv
            obtain ⟨v0, hv0, rfl⟩ := mem_setBooking hv
            have := h.availLt v0 hv0
            by_cases e : v0._id = w._id <;> simp [e] <;> omega
          · intro a ha
            rcases List.mem_append.mp ha with ha | ha
            · exact Nat.lt_succ_of_lt (h.apptLt a ha)
            · simp at ha; subst ha; simp
          · intro a ha
            rcases List.mem_append.mp ha with ha | ha
            · exact Nat.lt_succ_of_lt (h.slotLt a ha)
            · simp at ha; subst ha
              have := h.availLt w hwmem
              simp only
              omega
          · show (List.map _ (Availability.setBooking _ _ _ _)).Nodup
            rw [setBooking_ids]
            exact h.availNodup
          · show (List.map _ (s.appointments ++ _)).Nodup
            simp only [List.map_append, List.map_cons, List.map_nil]
            rw [List.nodup_append]
            refine ⟨h.apptNodup, by simp, ?_⟩
            intro x hx hx2
            simp at hx2
            subst hx2
            obtain ⟨a, ha, hax⟩ := List.mem_map.mp hx
            have := h.apptLt a ha
            omega
          · intro v hv
            obtain ⟨v0, hv0, rfl⟩ := mem_setBooking hv
            have hc := h.count v0 hv0
            simp only [scheduledCount] at hc hw0 ⊢
            by_cases e : v0._id = w._id
            · rw [e] at hc
              simp [e, List.filter_append, hw0]
            · have e2 : ¬ w._id = v0._id := fun h2 => e h2.symm
              simp [e, List.filter_append, hc, e2]
          · intro a ha hs
            have hkeep : ∀ v ∈ s.availabilities, ∃ v2 ∈
                Availability.setBooking s.availabilities w._id true (some user),
                v2._id = v._id := by
              intro v hv
              refine ⟨_, List.mem_map.mpr ⟨v, hv, rfl⟩, ?_⟩
              by_cases e : v._id = w._id <;> simp [e]
            rcases List.mem_append.mp ha with ha | ha
            · obtain ⟨v, hv, hva⟩ := h.slotExists a ha hs
              obtain ⟨v2, hv2, e2⟩ := hkeep v hv
              exact ⟨v2, hv2, e2.trans hva⟩
            · simp at ha; subst ha
              exact hkeep w hwmem
          · intro v hv
            obtain ⟨v0, hv0, rfl⟩ := mem_setBooking hv
            have := h.range v0 hv0
            by_cases e : v0._id = w._id <;> simpa [e] using this
          · refine setBooking_pairwise ?_ _ _ _ h.noOverlap
            intro v1 v2 b1 b2 u1 u2 h12
            exact ⟨h12, h12, h12⟩

theorem cancelAppointment_inv {s : Store} (h : Inv s) (user id : Nat) (reason : Option String) :
    Inv (cancelAppointment none s user id reason).1 := by
  unfold cancelAppointment
  simp only [reduceCtorEq, if_false]
  cases hf : s.appointments.find? (cancelQuery id user) with
  | none => exact h
  | some a0 =>
    obtain ⟨ha0, hid, -, hst⟩ := cancelQuery_some hf
    simp only
    constructor
    · intro v hv
      obtain ⟨v0, hv0, rfl⟩ := mem_setBooking hv
      have := h.availLt v0 hv0
      by_cases e : v0._id = a0.availabilitySlot <;> simpa [e] using this
    · intro a ha
      obtain ⟨b, hb, rfl⟩ := mem_setCancelled ha
      have := h.apptLt b hb
      by_cases e : b._id = a0._id <;> simpa [e] using this
    · intro a ha
      obtain ⟨b, hb, rfl⟩ := mem_setCancelled ha
      have := h.slotLt b hb
      by_cases e : b._id = a0._id <;> simpa [e] using this
    · show (List.map _ (Availability.setBooking _ _ _ _)).Nodup
      rw [setBooking_ids]
      exact h.availNodup
    · show (List.map _ (Appointment.setCancelled _ _ _ _)).Nodup
      rw [setCancelled_ids]
      exact h.apptNodup
    · intro v hv
      obtain ⟨v0, hv0, rfl⟩ := mem_setBooking hv
      have hc := h.count v0 hv0
      simp only [scheduledCount] at hc ⊢
      by_cases e : v0._id = a0.availabilitySlot
      · have hle : (List.filter (fun a => decide (a.status = Status.scheduled)
            && decide (a.availabilitySlot = v0._id)) s.appointments).length ≤ 1 := by
          rw [hc]; split <;> omega
        have hin : ∀ b ∈ s.appointments, b.status = Status.scheduled →
            b.availabilitySlot = v0._id → b = a0 := by
          intro b hb hbs hbv
          refine eq_of_mem_of_length_le_one hle ?_ ?_
          · exact List.mem_filter.mpr ⟨hb, by simp [hbs, hbv]⟩
          · exact List.mem_filter.mpr ⟨ha0, by simp [hst, e]⟩
        rw [if_pos e]
        simp only [Bool.false_eq_true, if_false, List.length_eq_zero, List.filter_eq_nil_iff]
        intro a ha
        obtain ⟨b, hb, rfl⟩ := mem_setCancelled ha
        by_cases eb : b._id = a0._id
        · simp [eb]
        · simp only [eb, if_false]
          intro hp
          simp only [Bool.and_eq_true, decide_eq_true_eq] at hp
          exact eb (by rw [hin b hb hp.1 hp.2])
      · rw [if_neg e, ← hc]
        unfold Appointment.setCancelled
        rw [List.filter_map, List.length_map]
        congr 1
        apply List.filter_congr
        intro b hb
        by_cases eb : b._id = a0._id
        · have hba : b = a0 := List.inj_on_of_nodup_map h.apptNodup hb ha0 eb
          subst hba
          have e2 : ¬ b.availabilitySlot = v0._id := fun h2 => e h2.symm
          simp [e2]
        · simp [eb]
    · intro a ha hs
      obtain ⟨b, hb, rfl⟩ := mem_setCancelled ha
      by_cases eb : b._id = a0._id
      · simp [eb] at hs
      · simp only [eb, if_false] at hs ⊢
        obtain ⟨v, hv, hva⟩ := h.slotExists b hb hs
        refine ⟨_, List.mem_map.mpr ⟨v, hv, rfl⟩, ?_⟩
        by_cases e : v._id = a0.availabilitySlot
        · rw [if_pos e]; exact hva
        · rw [if_neg e]; exact hva
    · intro v hv
      obtain ⟨v0, hv0, rfl⟩ := mem_setBooking hv
      have := h.range v0 hv0
      by_cases e : v0._id = a0.availabilitySlot <;> simpa [e] using this
    · refine setBooking_pairwise ?_ _ _ _ h.noOverlap
      intro v1 v2 b1 b2 u1 u2 h12
      exact ⟨h12, h12, h12⟩

theorem reachable_inv {s : Store} (h : Reachable s) : Inv s := by
  induction h with
  | empty => exact inv_emptyStore
  | createWindow user startTime endTime _ ih => exact createAvailability_inv ih user startTime endTime
  | deleteWindow user id _ ih => exact deleteAvailability_inv ih user id
  | book user availabilityId now _ ih => exact bookAppointment_inv ih user availabilityId now
  | cancel user id reason _ ih => exact cancelAppointment_inv ih user id reason

/-! ## Store invariants -/

/-- C1: in every store reachable from the empty store by complete runs of the
four handlers, a booked slot is referenced by exactly one scheduled
appointment and a free slot by none; so no slot is ever referenced by two
scheduled appointments. -/
theorem booked_iff_one_scheduled (s : Store) (hs : Reachable s) (w : Availability)
    (hw : w ∈ s.availabilities) :
    (w.isBooked = true → scheduledCount s w._id = 1) ∧
    (w.isBooked = false → scheduledCount s w._id = 0) ∧
    scheduledCount s w._id ≤ 1 := by
  have hc := (reachable_inv hs).count w hw
  refine ⟨fun hb => by simpa [hb] using hc, fun hb => by simpa [hb] using hc, ?_⟩
  rw [hc]
  split <;> omega

theorem booked_iff_one_scheduled_witness :
    scheduledCount storeBooked 0 = 1 ∧ scheduledCount storeBooked 0 ≤ 1 :=
  have h := booked_iff_one_scheduled storeBooked
    (Reachable.book 3 (some 0) 5 (Reachable.createWindow 7 (some 10) (some 20) Reachable.empty))
    { _id := 0, professor := 7, startTime := 10, endTime := 20, isBooked := true,
      bookedBy := some 3 }
    (by decide)
  ⟨h.1 rfl, h.2.2⟩

/-- C2: in every store reachable from the empty store, two distinct slots of
the same professor never overlap as half-open intervals, booked or not: the
overlap test of the handler fails on them and no instant lies in both. -/
theorem same_professor_no_overlap (s : Store) (hs : Reachable s) (w1 w2 : Availability)
    (h1 : w1 ∈ s.availabilities) (h2 : w2 ∈ s.availabilities) (hne : w1 ≠ w2)
    (hp : w1.professor = w2.professor) :
    ¬ (w1.startTime < w2.endTime ∧ w2.startTime < w1.endTime) ∧
    ∀ t : Int, ¬ (w1.startTime ≤ t ∧ t < w1.endTime ∧ w2.startTime ≤ t ∧ t < w2.endTime) := by
  have hpw := (reachable_inv hs).noOverlap
  have hsymm : Symmetric (fun v1 v2 : Availability =>
      v1.professor = v2.professor → ¬ overlaps v1 v2) := by
    intro v1 v2 h12 hp21 hov
    exact h12 hp21.symm ⟨hov.2, hov.1⟩
  have hno : ¬ overlaps w1 w2 := hpw.forall hsymm h1 h2 hne hp
  refine ⟨hno, ?_⟩
  intro t ht
  apply hno
  constructor
  · exact lt_of_le_of_lt ht.1 ht.2.2.2
  · exact lt_of_le_of_lt ht.2.2.1 ht.2.1

theorem same_professor_no_overlap_witness :
    ¬ ((10 : Int) < 30 ∧ (20 : Int) < 20) :=
  (same_professor_no_overlap storeTwoSlots
    (Reachable.createWindow 7 (some 20) (some 30)
      (Reachable.createWindow 7 (some 10) (some 20) Reachable.empty))
    { _id := 0, professor := 7, startTime := 10, endTime := 20, isBooked := false,
      bookedBy := none }
    { _id := 1, professor := 7, startTime := 20, endTime := 30, isBooked := false,
      bookedBy := none }
    (by decide) (by decide) (by decide) rfl).1

/-! ## Creating a slot -/

theorem find_overlapsQuery_isSome (s : Store) (user : Nat) (st en : Int) :
    (∃ w, s.availabilities.find? (overlapsQuery user st en) = some w) ↔
    ∃ w ∈ s.availabilities, w.professor = user ∧ w.startTime < en ∧ w.endTime > st := by
  constructor
  · rintro ⟨w, hw⟩
    have h2 := List.find?_some hw
    simp only [overlapsQuery, Bool.and_eq_true, decide_eq_true_eq] at h2
    exact ⟨w, List.mem_of_find?_eq_some hw, h2.1.1, h2.1.2, h2.2⟩
  · rintro ⟨w, hw, hp, h1, h2⟩
    cases hf : s.availabilities.find? (overlapsQuery user st en) with
    | some v => exact ⟨v, rfl⟩
    | none =>
      have := List.find?_eq_none.mp hf w hw
      simp [overlapsQuery, hp, h1, h2] at this

/-- C3: for a range with `startTime < endTime`, `createAvailability` answers
OverlapConflict exactly when some slot of the same professor, free or booked,
has `startTime < endTime'` and `endTime > startTime'`, and then leaves the
store as it was; when every stored slot belongs to another professor, ends at
or before the new start, or starts at or after the new end, the slot is
accepted and persisted free under a new id. -/
theorem createAvailability_overlap_iff (s : Store) (user : Nat) (st en : Int) (hlt : st < en) :
    ((createAvailability none s user (some st) (some en)).2 = .error .overlapConflict ↔
      ∃ w ∈ s.availabilities, w.professor = user ∧ w.startTime < en ∧ w.endTime > st) ∧
    ((createAvailability none s user (some st) (some en)).2 = .error .overlapConflict →
      (createAvailability none s user (some st) (some en)).1 = s) ∧
    ((∀ w ∈ s.availabilities, w.professor ≠ user ∨ w.endTime ≤ st ∨ en ≤ w.startTime) →
      createAvailability none s user (some st) (some en) =
        ({ s with
            availabilities := s.availabilities ++
              [{ _id := s.nextId, professor := user, startTime := st, endTime := en,
                 isBooked := false, bookedBy := none }],
            nextId := s.nextId + 1 },
         .ok { _id := s.nextId, professor := user, startTime := st, endTime := en,
               isBooked := false, bookedBy := none })) := by
  have hr : ¬ st ≥ en := not_le.mpr hlt
  have hiff := find_overlapsQuery_isSome s user st en
  cases hf : s.availabilities.find? (overlapsQuery user st en) with
  | some v =>
    have hex := hiff.mp ⟨v, hf⟩
    refine ⟨?_, ?_, ?_⟩
    · simp only [createAvailability, hr, hf, if_false, reduceCtorEq, true_iff]
      exact hex
    · intro _
      simp only [createAvailability, hr, hf, if_false, reduceCtorEq]
    · intro hall
      obtain ⟨w, hw, hp, h1, h2⟩ := hex
      rcases hall w hw with h | h | h
      · exact absurd hp h
      · exact absurd h2 (not_lt.mpr h)
      · exact absurd h1 (not_lt.mpr h)
  | none =>
    have hnex : ¬ ∃ w ∈ s.availabilities, w.professor = user ∧ w.startTime < en ∧ w.endTime > st := by
      intro hex
      obtain ⟨v, hv⟩ := hiff.mpr hex
      rw [hf] at hv
      cases hv
    refine ⟨?_, ?_, ?_⟩
    · simp only [createAvailability, hr, hf, if_false, reduceCtorEq]
      constructor
      · intro h; cases h
      · intro h; exact absurd h hnex
    · simp only [createAvailability, hr, hf, if_false, reduceCtorEq]
      intro h; cases h
    · intro _
      simp only [createAvailability, hr, hf, if_false, reduceCtorEq]

theorem createAvailability_overlap_iff_witness :
    createAvailability none storeFree 7 (some 20) (some 30) =
      (storeTwoSlots,
       .ok { _id := 1, professor := 7, startTime := 20, endTime := 30,
             isBooked := false, bookedBy := none }) :=
  (createAvailability_overlap_iff storeFree 7 20 30 (by decide)).2.2 (by decide)

/-! ## Booking -/

/-- C4: `bookAppointment` answers NotFound when no slot has the id, otherwise
AlreadyBooked when the fetched slot is booked, otherwise PastSlot when its
`startTime` is at or before the clock, each time leaving the store as it was;
in every other case it answers with an appointment. -/
theorem bookAppointment_guards (s : Store) (user id : Nat) (now : Int) :
    ((∀ w ∈ s.availabilities, w._id ≠ id) →
      bookAppointment none s user (some id) now = (s, .error .slotNotFound)) ∧
    ((∃ w ∈ s.availabilities, w._id = id) →
      ∃ w, Availability.findById s.availabilities id = some w ∧
        w ∈ s.availabilities ∧ w._id = id) ∧
    (∀ w, Availability.findById s.availabilities id = some w → w.isBooked = true →
      bookAppointment none s user (some id) now = (s, .error .alreadyBooked)) ∧
    (∀ w, Availability.findById s.availabilities id = some w → w.isBooked = false →
      w.startTime ≤ now →
      bookAppointment none s user (some id) now = (s, .error .pastSlot)) ∧
    (∀ w, Availability.findById s.availabilities id = some w → w.isBooked = false →
      now < w.startTime →
      ∃ a, (bookAppointment none s user (some id) now).2 = .ok a) := by
  refine ⟨?_, ?_, ?_, ?_, ?_⟩
  · intro hall
    have hf : Availability.findById s.availabilities id = none := by
      unfold Availability.findById
      rw [List.find?_eq_none]
      intro w hw
      simpa using hall w hw
    simp only [bookAppointment, hf, reduceCtorEq, if_false]
  · rintro ⟨w, hw, hid⟩
    cases hf : Availability.findById s.availabilities id with
    | none => exact absurd hid (findById_none hf w hw)
    | some v => exact ⟨v, rfl, findById_some hf⟩
  · intro w hf hb
    simp only [bookAppointment, hf, hb, reduceCtorEq, if_false, if_true]
  · intro w hf hb hp
    simp only [bookAppointment, hf, hb, hp, reduceCtorEq, if_false, if_true, Bool.false_eq_true]
  · intro w hf hb hp
    have hp2 : ¬ w.startTime ≤ now := not_le.mpr hp
    simp only [bookAppointment, hf, hb, hp2, reduceCtorEq, if_false, Bool.false_eq_true]
    exact ⟨_, rfl⟩

theorem bookAppointment_guards_witness :
    bookAppointment none storeFree 3 (some 4) 5 = (storeFree, .error .slotNotFound) ∧
    bookAppointment none storeBooked 4 (some 0) 50 = (storeBooked, .error .alreadyBooked) ∧
    bookAppointment none storeFree 3 (some 0) 10 = (storeFree, .error .pastSlot) ∧
    (∃ a, (bookAppointment none storeFree 3 (some 0) 9).2 = .ok a) :=
  ⟨(bookAppointment_guards storeFree 3 4 5).1 (by decide),
   (bookAppointment_guards storeBooked 4 0 50).2.2.1
     { _id := 0, professor := 7, startTime := 10, endTime := 20, isBooked := true,
       bookedBy := some 3 } (by decide) rfl,
   (bookAppointment_guards storeFree 3 0 10).2.2.2.1
     { _id := 0, professor := 7, startTime := 10, endTime := 20, isBooked := false,
       bookedBy := none } (by decide) rfl (by decide),
   (bookAppointment_guards storeFree 3 0 9).2.2.2.2
     { _id := 0, professor := 7, startTime := 10, endTime := 20, isBooked := false,
       bookedBy := none } (by decide) rfl (by decide)⟩

/-- C5: when `bookAppointment` answers with an appointment, that appointment
is scheduled, carries the caller as student, the fetched slot's professor, the
slot id and the slot's `startTime`; the `Appointment` collection gains it and
nothing else, and in the `Availability` collection the slot with that id is
now booked by the caller while every other slot is as before. -/
theorem bookAppointment_success (s s2 : Store) (user id : Nat) (now : Int) (a : Appointment)
    (h : bookAppointment none s user (some id) now = (s2, .ok a)) :
    ∃ w, Availability.findById s.availabilities id = some w ∧
      a = { _id := s.nextId, student := user, professor := w.professor,
            availabilitySlot := id, appointmentTime := w.startTime,
            status := Status.scheduled, cancelledBy := none, cancellationReason := none } ∧
      s2.appointments = s.appointments ++ [a] ∧
      s2.availabilities = s.availabilities.map (fun v =>
        if v._id = id then { v with isBooked := true, bookedBy := some user } else v) ∧
      Availability.findById s2.availabilities id =
        some { w with isBooked := true, bookedBy := some user } := by
  unfold bookAppointment at h
  simp only [reduceCtorEq, if_false] at h
  cases hf : Availability.findById s.availabilities id with
  | none => simp [hf] at h
  | some w =>
    obtain ⟨hwmem, hwid⟩ := findById_some hf
    by_cases hb : w.isBooked = true
    · simp [hf, hb] at h
    · by_cases hp : w.startTime ≤ now
      · simp [hf, hb, hp] at h
      · simp only [hf, hb, hp, if_false, Bool.false_eq_true, Prod.mk.injEq, Except.ok.injEq] at h
        obtain ⟨hs2, ha⟩ := h
        subst hs2 ha
        refine ⟨w, rfl, rfl, rfl, ?_, ?_⟩
        · simp only [Availability.setBooking, hwid]
        · simp only [Availability.setBooking, Availability.findById, hwid] at hf ⊢
          rw [List.find?_map]
          have hcomp : ((fun v : Availability => decide (v._id = id)) ∘
              fun v : Availability =>
                if v._id = id then { v with isBooked := true, bookedBy := some user } else v)
              = fun v => decide (v._id = id) := by
            funext v
            by_cases e : v._id = id <;> simp [e]
          rw [hcomp, hf]
          simp [hwid]

theorem bookAppointment_success_witness :
    ∃ w, Availability.findById storeFree.availabilities 0 = some w ∧
      ({ _id := 1, student := 3, professor := 7, availabilitySlot := 0, appointmentTime := 10,
         status := Status.scheduled, cancelledBy := none, cancellationReason := none }
        : Appointment) =
        { _id := storeFree.nextId, student := 3, professor := w.professor,
          availabilitySlot := 0, appointmentTime := w.startTime,
          status := Status.scheduled, cancelledBy := none, cancellationReason := none } ∧
      storeBooked.appointments = storeFree.appointments ++
        [{ _id := 1, student := 3, professor := 7, availabilitySlot := 0, appointmentTime := 10,
           status := Status.scheduled, cancelledBy := none, cancellationReason := none }] ∧
      storeBooked.availabilities = storeFree.availabilities.map (fun v =>
        if v._id = 0 then { v with isBooked := true, bookedBy := some 3 } else v) ∧
      Availability.findById storeBooked.availabilities 0 =
        some { w with isBooked := true, bookedBy := some 3 } :=
  bookAppointment_success storeFree storeBooked 3 0 5
    { _id := 1, student := 3, professor := 7, availabilitySlot := 0, appointmentTime := 10,
      status := Status.scheduled, cancelledBy := none, cancellationReason := none }
    (by decide)

/-! ## Booking then cancelling -/

/-- C6, as stated, fails for an empty reason: student 3 books the slot of
professor 7 and the professor cancels with the reason given as the empty
string; the appointment then records the default text and not the given
reason. -/
theorem book_cancel_empty_reason :
    (cancelAppointment none storeBooked 7 1 (some "")).2 =
      .ok { _id := 1, student := 3, professor := 7, availabilitySlot := 0,
            appointmentTime := 10, status := Status.cancelled, cancelledBy := some 7,
            cancellationReason := some "Cancelled by professor" } ∧
    (some "Cancelled by professor" : Option String) ≠ some "" := by
  decide

/-- C6, amended: in a reachable store, booking a free slot that starts after
the clock and then cancelling the returned appointment as the slot's professor
leaves the slot free with `bookedBy` cleared and its times and owner as they
were, leaves the appointment cancelled with `cancelledBy` the professor and
`cancellationReason` the given reason when that is a non-empty string and the
text Cancelled by professor when it is missing or empty, and a further booking
of the slot by any student at the same clock value succeeds. -/
theorem book_cancel_roundtrip (s : Store) (hs : Reachable s) (w : Availability)
    (hw : w ∈ s.availabilities) (hfree : w.isBooked = false) (now : Int)
    (hnow : now < w.startTime) (student : Nat) (reason : Option String) :
    ∃ s1 a s2 a2,
      bookAppointment none s student (some w._id) now = (s1, .ok a) ∧
      cancelAppointment none s1 w.professor a._id reason = (s2, .ok a2) ∧
      a2 = { a with status := Status.cancelled, cancelledBy := some w.professor,
                    cancellationReason := a2.cancellationReason } ∧
      (∀ r, reason = some r → r ≠ "" → a2.cancellationReason = some r) ∧
      (reason = none ∨ reason = some "" →
        a2.cancellationReason = some "Cancelled by professor") ∧
      s2.appointments = s.appointments ++ [a2] ∧
      Availability.findById s2.availabilities w._id =
        some { w with isBooked := false, bookedBy := none } ∧
      ∀ student2, ∃ s3 a3,
        bookAppointment none s2 student2 (some w._id) now = (s3, .ok a3) := by
  have hinv := reachable_inv hs
  have hf := findById_of_mem hinv.availNodup hw
  have hbook := bookAppointment_of_free none student hf hfree hnow (by simp) (by simp)
  simp only [reduceCtorEq, if_false] at hbook
  have hold : ∀ b ∈ s.appointments, b._id ≠ s.nextId := fun b hb =>
    Nat.ne_of_lt (hinv.apptLt b hb)
  have hq : cancelQuery s.nextId w.professor
      { _id := s.nextId, student := student, professor := w.professor,
        availabilitySlot := w._id, appointmentTime := w.startTime,
        status := Status.scheduled, cancelledBy := none, cancellationReason := none } = true := by
    simp [cancelQuery]
  have hfind := find_cancelQuery_append_new hold hq
  have hcancel := cancelAppointment_of_found
    (s := { availabilities := Availability.setBooking s.availabilities w._id true (some student),
            appointments := s.appointments ++
              [{ _id := s.nextId, student := student, professor := w.professor,
                 availabilitySlot := w._id, appointmentTime := w.startTime,
                 status := Status.scheduled, cancelledBy := none, cancellationReason := none }],
            nextId := s.nextId + 1 })
    none reason hfind (by simp) (by simp)
  simp only [reduceCtorEq, if_false] at hcancel
  have hwin : Availability.findById
      (Availability.setBooking
        (Availability.setBooking s.availabilities w._id true (some student)) w._id false none)
      w._id = some { w with isBooked := false, bookedBy := none } := by
    rw [findById_setBooking, findById_setBooking, hf]
    rfl
  refine ⟨_, _, _, _, hbook, hcancel, rfl, ?_, ?_, ?_, hwin, ?_⟩
  · intro r hr hne
    subst hr
    simp [reasonOrDefault, hne]
  · rintro (hr | hr) <;> subst hr <;> simp [reasonOrDefault]
  · simp only [Appointment.setCancelled, List.map_append, List.map_cons, List.map_nil, if_true]
    congr 1
    exact setCancelled_of_ne w.professor (reasonOrDefault reason) hold
  · intro student2
    have hfree2 : ({ w with isBooked := false, bookedBy := none } : Availability).isBooked
        = false := rfl
    have h3 := bookAppointment_of_free
      (s := { availabilities := Availability.setBooking
                (Availability.setBooking s.availabilities w._id true (some student))
                w._id false none,
              appointments := Appointment.setCancelled
                (s.appointments ++
                  [{ _id := s.nextId, student := student, professor := w.professor,
                     availabilitySlot := w._id, appointmentTime := w.startTime,
                     status := Status.scheduled, cancelledBy := none,
                     cancellationReason := none }])
                s.nextId w.professor (reasonOrDefault reason),
              nextId := s.nextId + 1 })
      none student2 hwin hfree2 hnow (by simp) (by simp)
    simp only [reduceCtorEq, if_false] at h3
    exact ⟨_, _, h3⟩

theorem book_cancel_roundtrip_witness :
    ∃ s1 a s2 a2,
      bookAppointment none storeFree 3 (some 0) 5 = (s1, .ok a) ∧
      cancelAppointment none s1 7 a._id (some "Emergency meeting") = (s2, .ok a2) ∧
      a2 = { a with status := Status.cancelled, cancelledBy := some 7,
                    cancellationReason := a2.cancellationReason } ∧
      (∀ r, some "Emergency meeting" = some r → r ≠ "" → a2.cancellationReason = some r) ∧
      (some "Emergency meeting" = none ∨ some "Emergency meeting" = some "" →
        a2.cancellationReason = some "Cancelled by professor") ∧
      s2.appointments = storeFree.appointments ++ [a2] ∧
      Availability.findById s2.availabilities 0 =
        some { _id := 0, professor := 7, startTime := 10, endTime := 20, isBooked := false,
               bookedBy := none } ∧
      ∀ student2, ∃ s3 a3,
        bookAppointment none s2 student2 (some 0) 5 = (s3, .ok a3) :=
  book_cancel_roundtrip storeFree
    (Reachable.createWindow 7 (some 10) (some 20) Reachable.empty)
    { _id := 0, professor := 7, startTime := 10, endTime := 20, isBooked := false,
      bookedBy := none }
    (by decide) rfl 5 (by decide) 3 (some "Emergency meeting")

/-! ## Cancelling -/

theorem find_cancelQuery_isSome (docs : List Appointment) (id user : Nat) :
    (∃ a, docs.find? (cancelQuery id user) = some a) ↔
    ∃ a ∈ docs, a._id = id ∧ a.professor = user ∧ a.status = Status.scheduled := by
  constructor
  · rintro ⟨a, ha⟩
    exact ⟨a, cancelQuery_some ha⟩
  · rintro ⟨a, ha, h1, h2, h3⟩
    cases hf : docs.find? (cancelQuery id user) with
    | some b => exact ⟨b, rfl⟩
    | none =>
      have := List.find?_eq_none.mp hf a ha
      simp [cancelQuery, h1, h2, h3] at this

theorem find_cancelQuery_setCancelled (docs : List Appointment) (id user user2 : Nat)
    (r : String) :
    (Appointment.setCancelled docs id user r).find? (cancelQuery id user2) = none := by
  rw [List.find?_eq_none]
  intro a ha
  obtain ⟨b, _, rfl⟩ := mem_setCancelled ha
  by_cases e : b._id = id <;> simp [cancelQuery, e]

/-- C7: `cancelAppointment` answers with the appointment exactly when some
appointment has the id, the caller as professor and status scheduled; in
every other case it answers NotFound and leaves the store as it was. After a
successful run, a second run by the same professor on the same id answers
NotFound, whatever reason it carries. -/
theorem cancelAppointment_iff (s : Store) (user id : Nat) (reason : Option String) :
    ((∃ a, (cancelAppointment none s user id reason).2 = .ok a) ↔
      ∃ a ∈ s.appointments, a._id = id ∧ a.professor = user ∧ a.status = Status.scheduled) ∧
    ((¬ ∃ a ∈ s.appointments, a._id = id ∧ a.professor = user ∧ a.status = Status.scheduled) →
      cancelAppointment none s user id reason = (s, .error .appointmentNotFound)) ∧
    ((∃ a, (cancelAppointment none s user id reason).2 = .ok a) →
      ∀ reason2,
        cancelAppointment none (cancelAppointment none s user id reason).1 user id reason2 =
          ((cancelAppointment none s user id reason).1, .error .appointmentNotFound)) := by
  have hiff := find_cancelQuery_isSome s.appointments id user
  cases hf : s.appointments.find? (cancelQuery id user) with
  | none =>
    have hnex : ¬ ∃ a ∈ s.appointments,
        a._id = id ∧ a.professor = user ∧ a.status = Status.scheduled := by
      intro hex
      obtain ⟨b, hb⟩ := hiff.mpr hex
      rw [hf] at hb
      cases hb
    have hres : cancelAppointment none s user id reason = (s, .error .appointmentNotFound) := by
      simp only [cancelAppointment, hf, reduceCtorEq, if_false]
    refine ⟨?_, fun _ => hres, ?_⟩
    · rw [hres]
      constructor
      · rintro ⟨a, ha⟩; cases ha
      · intro hex; exact absurd hex hnex
    · rw [hres]
      rintro ⟨a, ha⟩
      cases ha
  | some a0 =>
    have hex := hiff.mp ⟨a0, hf⟩
    have hid : a0._id = id := (cancelQuery_some hf).2.1
    have hres := cancelAppointment_of_found none reason hf (by simp) (by simp)
    simp only [reduceCtorEq, if_false] at hres
    refine ⟨?_, fun hn => absurd hex hn, ?_⟩
    · rw [hres]
      exact ⟨fun _ => hex, fun _ => ⟨_, rfl⟩⟩
    · intro _ reason2
      rw [hres]
      have hnone := find_cancelQuery_setCancelled s.appointments id user user
        (reasonOrDefault reason)
      simp only [cancelAppointment, hid, hnone, reduceCtorEq, if_false]

theorem cancelAppointment_iff_witness :
    (∃ a, (cancelAppointment none storeBooked 7 1 none).2 = .ok a) ∧
    cancelAppointment none storeBooked 8 1 none = (storeBooked, .error .appointmentNotFound) ∧
    cancelAppointment none (cancelAppointment none storeBooked 7 1 none).1 7 1 none =
      ((cancelAppointment none storeBooked 7 1 none).1, .error .appointmentNotFound) :=
  ⟨(cancelAppointment_iff storeBooked 7 1 none).1.mpr (by decide),
   (cancelAppointment_iff storeBooked 8 1 none).2.1 (by decide),
   (cancelAppointment_iff storeBooked 7 1 none).2.2
     ((cancelAppointment_iff storeBooked 7 1 none).1.mpr (by decide)) none⟩

/-! ## Concurrent bookings -/

theorem interleave_first_thrice (now : Int) (s : Store) (user : Nat)
    (availabilityId : Option Nat) (b : BookRun) :
    interleave now [Turn.first, Turn.first, Turn.first]
        (s, BookRun.start user availabilityId, b) =
      ((bookAppointment none s user availabilityId now).1,
       BookRun.done (bookAppointment none s user availabilityId now).2, b) := by
  cases availabilityId with
  | none => simp [interleave, bookStep, bookAppointment]
  | some id =>
    cases hf : Availability.findById s.availabilities id with
    | none => simp [interleave, bookStep, bookAppointment, hf]
    | some w =>
      by_cases hb : w.isBooked = true
      · simp [interleave, bookStep, bookAppointment, hf, hb]
      · by_cases hp : w.startTime ≤ now
        · simp [interleave, bookStep, bookAppointment, hf, hb, hp]
        · simp [interleave, bookStep, bookAppointment, hf, hb, hp]

theorem length_eq_count_add_count (l : List Turn) :
    l.length = l.count Turn.first + l.count Turn.second := by
  induction l with
  | nil => rfl
  | cons t rest ih =>
    cases t <;> simp [List.count_cons, ih] <;> omega

/-- C8, as stated, fails: two students book the same free slot and both read
it before either saves it; both runs answer with a scheduled appointment and
the store ends with two scheduled appointments on the slot. -/
theorem concurrent_book_both_succeed :
    completeSchedule
      [Turn.first, Turn.second, Turn.first, Turn.first, Turn.second, Turn.second] ∧
    interleave 5
        [Turn.first, Turn.second, Turn.first, Turn.first, Turn.second, Turn.second]
        (storeFree, BookRun.start 3 (some 0), BookRun.start 4 (some 0)) =
      ({ availabilities :=
           [{ _id := 0, professor := 7, startTime := 10, endTime := 20, isBooked := true,
              bookedBy := some 4 }],
         appointments :=
           [{ _id := 1, student := 3, professor := 7, availabilitySlot := 0,
              appointmentTime := 10, status := Status.scheduled, cancelledBy := none,
              cancellationReason := none },
            { _id := 2, student := 4, professor := 7, availabilitySlot := 0,
              appointmentTime := 10, status := Status.scheduled, cancelledBy := none,
              cancellationReason := none }],
         nextId := 3 },
       BookRun.done (.ok
         { _id := 1, student := 3, professor := 7, availabilitySlot := 0,
           appointmentTime := 10, status := Status.scheduled, cancelledBy := none,
           cancellationReason := none }),
       BookRun.done (.ok
         { _id := 2, student := 4, professor := 7, availabilitySlot := 0,
           appointmentTime := 10, status := Status.scheduled, cancelledBy := none,
           cancellationReason := none })) := by
  decide

/-- C8, amended: two runs of `bookAppointment` by two students on the id of
a slot that is free and starts after the clock, in any store, their store
operations interleaved by any complete schedule. When one run ends before the
other begins, that run answers with a scheduled appointment, the other
answers AlreadyBooked and the scheduled appointments referencing the slot
grow by one. In every other schedule the second fetch precedes the first
save: both runs answer with a scheduled appointment and the scheduled
appointments referencing the slot grow by two. -/
theorem concurrent_book_outcomes (s : Store) (id : Nat) (w : Availability)
    (hf : Availability.findById s.availabilities id = some w) (hfree : w.isBooked = false)
    (now : Int) (hnow : now < w.startTime) (u1 u2 : Nat) (sched : List Turn)
    (hsched : completeSchedule sched) :
    (sched = [Turn.first, Turn.first, Turn.first, Turn.second, Turn.second, Turn.second] →
      (interleave now sched
        (s, BookRun.start u1 (some id), BookRun.start u2 (some id))).2.1.succeeded = true ∧
      (interleave now sched
        (s, BookRun.start u1 (some id), BookRun.start u2 (some id))).2.2
          = BookRun.done (.error .alreadyBooked) ∧
      scheduledCount (interleave now sched
        (s, BookRun.start u1 (some id), BookRun.start u2 (some id))).1 id
          = scheduledCount s id + 1) ∧
    (sched = [Turn.second, Turn.second, Turn.second, Turn.first, Turn.first, Turn.first] →
      (interleave now sched
        (s, BookRun.start u1 (some id), BookRun.start u2 (some id))).2.1
          = BookRun.done (.error .alreadyBooked) ∧
      (interleave now sched
        (s, BookRun.start u1 (some id), BookRun.start u2 (some id))).2.2.succeeded = true ∧
      scheduledCount (interleave now sched
        (s, BookRun.start u1 (some id), BookRun.start u2 (some id))).1 id
          = scheduledCount s id + 1) ∧
    (¬ sequential sched →
      (interleave now sched
        (s, BookRun.start u1 (some id), BookRun.start u2 (some id))).2.1.succeeded = true ∧
      (interleave now sched
        (s, BookRun.start u1 (some id), BookRun.start u2 (some id))).2.2.succeeded = true ∧
      scheduledCount (interleave now sched
        (s, BookRun.start u1 (some id), BookRun.start u2 (some id))).1 id
          = scheduledCount s id + 2) := by
  have hwid : w._id = id := (findById_some hf).2
  subst hwid
  have hp2 : ¬ w.startTime ≤ now := not_le.mpr hnow
  obtain ⟨h1, h2⟩ := hsched
  have hlen := length_eq_count_add_count sched
  rw [h1, h2] at hlen
  rcases sched with _ | ⟨t1, _ | ⟨t2, _ | ⟨t3, _ | ⟨t4, _ | ⟨t5, _ | ⟨t6, _ | ⟨t7, rest⟩⟩⟩⟩⟩⟩⟩
  all_goals try (simp at hlen; done)
  cases t1 <;> cases t2 <;> cases t3 <;> cases t4 <;> cases t5 <;> cases t6 <;>
    first
    | (exfalso; revert h1 h2; decide)
    | simp [interleave, bookStep, hf, hfree, hp2, findById_setBooking, sequential,
        BookRun.succeeded, scheduledCount, List.filter_append]

theorem concurrent_book_outcomes_witness :
    (interleave 5
      [Turn.first, Turn.first, Turn.first, Turn.second, Turn.second, Turn.second]
      (storeFree, BookRun.start 3 (some 0), BookRun.start 4 (some 0))).2.1.succeeded = true ∧
    (interleave 5
      [Turn.first, Turn.first, Turn.first, Turn.second, Turn.second, Turn.second]
      (storeFree, BookRun.start 3 (some 0), BookRun.start 4 (some 0))).2.2
        = BookRun.done (.error .alreadyBooked) ∧
    scheduledCount (interleave 5
      [Turn.first, Turn.first, Turn.first, Turn.second, Turn.second, Turn.second]
      (storeFree, BookRun.start 3 (some 0), BookRun.start 4 (some 0))).1 0
        = scheduledCount storeFree 0 + 1 :=
  (concurrent_book_outcomes storeFree 0
    { _id := 0, professor := 7, startTime := 10, endTime := 20, isBooked := false,
      bookedBy := none }
    (by decide) rfl 5 (by decide) 3 4
    [Turn.first, Turn.first, Turn.first, Turn.second, Turn.second, Turn.second]
    (by decide)).1 rfl

/-! ## A store call that rejects between the two writes -/

/-- C9, as stated, fails: when `availability.save` rejects in
`bookAppointment` the run reports the error, yet the appointment created just
before stays scheduled on a slot that is still free; when `findByIdAndUpdate`
rejects in `cancelAppointment` the appointment stays cancelled and the slot
stays booked with no scheduled appointment. -/
theorem second_write_rejected_half_state :
    bookAppointment (some 2) storeFree 3 (some 0) 5 =
      ({ availabilities :=
           [{ _id := 0, professor := 7, startTime := 10, endTime := 20, isBooked := false,
              bookedBy := none }],
         appointments :=
           [{ _id := 1, student := 3, professor := 7, availabilitySlot := 0,
              appointmentTime := 10, status := Status.scheduled, cancelledBy := none,
              cancellationReason := none }],
         nextId := 2 },
       .error .storeError) ∧
    cancelAppointment (some 2) storeBooked 7 1 none =
      ({ availabilities :=
           [{ _id := 0, professor := 7, startTime := 10, endTime := 20, isBooked := true,
              bookedBy := some 3 }],
         appointments :=
           [{ _id := 1, student := 3, professor := 7, availabilitySlot := 0,
              appointmentTime := 10, status := Status.cancelled, cancelledBy := some 7,
              cancellationReason := some "Cancelled by professor" }],
         nextId := 2 },
       .error .storeError) ∧
    scheduledCount (cancelAppointment (some 2) storeBooked 7 1 none).1 0 = 0 := by
  decide

/-- C9, amended: in any store, when the second write of a handler rejects
after its first write went through, the run reports the store error, the
first write stays and the `Availability` collection is as it was. For
`bookAppointment` on the id of a slot that is free and starts after the
clock: the new scheduled appointment references the slot, which is still
free, and the scheduled appointments referencing it grow by one. For
`cancelAppointment` on an appointment it finds: the appointments are those of
a completed cancellation, every appointment with that id is cancelled, and
the slot keeps its booking state, so a slot that was booked with one
scheduled appointment, this one, is left booked with none. -/
theorem second_write_rejected (s : Store) :
    (∀ (id : Nat) (w : Availability), Availability.findById s.availabilities id = some w →
      w.isBooked = false → ∀ (now : Int), now < w.startTime →
      ∀ user : Nat, ∃ a s2,
        bookAppointment (some 2) s user (some id) now = (s2, .error .storeError) ∧
        s2.appointments = s.appointments ++ [a] ∧
        a.status = Status.scheduled ∧ a.availabilitySlot = id ∧
        s2.availabilities = s.availabilities ∧
        Availability.findById s2.availabilities id = some w ∧
        scheduledCount s2 id = scheduledCount s id + 1) ∧
    (∀ (user id : Nat) (a : Appointment),
      s.appointments.find? (cancelQuery id user) = some a →
      ∀ reason : Option String, ∃ s2,
        cancelAppointment (some 2) s user id reason = (s2, .error .storeError) ∧
        s2.appointments = (cancelAppointment none s user id reason).1.appointments ∧
        (∀ b ∈ s2.appointments, b._id = id → b.status = Status.cancelled) ∧
        s2.availabilities = s.availabilities ∧
        (∀ w ∈ s.availabilities, w._id = a.availabilitySlot → w.isBooked = true →
          scheduledCount s w._id = 1 →
          w ∈ s2.availabilities ∧ scheduledCount s2 w._id = 0)) := by
  constructor
  · intro id w hf hfree now hnow user
    have hbook := bookAppointment_of_free (some 2) user hf hfree hnow (by simp) (by simp)
    simp only [if_true] at hbook
    refine ⟨_, _, hbook, rfl, rfl, rfl, rfl, hf, ?_⟩
    simp [scheduledCount, List.filter_append]
  · intro user id a hfind reason
    obtain ⟨ha, hid, -, hst⟩ := cancelQuery_some hfind
    have hc2 := cancelAppointment_of_found (some 2) reason hfind (by simp) (by simp)
    have hc0 := cancelAppointment_of_found none reason hfind (by simp) (by simp)
    simp only [if_true] at hc2
    simp only [reduceCtorEq, if_false] at hc0
    refine ⟨_, hc2, ?_, ?_, rfl, ?_⟩
    · rw [hc0]
    · intro b hb hbid
      obtain ⟨c, _, rfl⟩ := mem_setCancelled hb
      by_cases e : c._id = a._id
      · simp [e]
      · simp only [e, if_false] at hbid
        exact absurd (hbid.trans hid.symm) e
    · intro w hw hwa _ hcount
      refine ⟨hw, ?_⟩
      have hle : (s.appointments.filter (fun b => decide (b.status = Status.scheduled)
          && decide (b.availabilitySlot = a.availabilitySlot))).length ≤ 1 := by
        rw [← hwa]
        simp only [scheduledCount] at hcount
        omega
      simp only [scheduledCount, hwa, List.length_eq_zero]
      exact scheduled_filter_setCancelled_nil user (reasonOrDefault reason) ha hst hle

theorem second_write_rejected_witness :
    (∃ a s2,
      bookAppointment (some 2) storeFree 3 (some 0) 5 = (s2, .error .storeError) ∧
      s2.appointments = storeFree.appointments ++ [a] ∧
      a.status = Status.scheduled ∧ a.availabilitySlot = 0 ∧
      s2.availabilities = storeFree.availabilities ∧
      Availability.findById s2.availabilities 0 =
        some { _id := 0, professor := 7, startTime := 10, endTime := 20, isBooked := false,
               bookedBy := none } ∧
      scheduledCount s2 0 = scheduledCount storeFree 0 + 1) ∧
    (∃ s2,
      cancelAppointment (some 2) storeBooked 7 1 none = (s2, .error .storeError) ∧
      s2.appointments = (cancelAppointment none storeBooked 7 1 none).1.appointments ∧
      (∀ b ∈ s2.appointments, b._id = 1 → b.status = Status.cancelled) ∧
      s2.availabilities = storeBooked.availabilities ∧
      ({ _id := 0, professor := 7, startTime := 10, endTime := 20, isBooked := true,
         bookedBy := some 3 } : Availability) ∈ s2.availabilities ∧
      scheduledCount s2 0 = 0) :=
  ⟨(second_write_rejected storeFree).1 0
      { _id := 0, professor := 7, startTime := 10, endTime := 20, isBooked := false,
        bookedBy := none }
      (by decide) rfl 5 (by decide) 3,
   ((second_write_rejected storeBooked).2 7 1
      { _id := 1, student := 3, professor := 7, availabilitySlot := 0, appointmentTime := 10,
        status := Status.scheduled, cancelledBy := none, cancellationReason := none }
      (by decide) none).imp fun _ h =>
        ⟨h.1, h.2.1, h.2.2.1, h.2.2.2.1,
          h.2.2.2.2
            { _id := 0, professor := 7, startTime := 10, endTime := 20, isBooked := true,
              bookedBy := some 3 }
            (by decide) rfl rfl (by decide)⟩⟩

/-! ## Invalid ranges -/

/-- C10: `createAvailability` answers InvalidRange for every `startTime` at or
after `endTime`, whatever the store holds and whichever store call would
reject, and leaves the store as it was; so every slot of a store reachable
from the empty store has `startTime < endTime`. -/
theorem createAvailability_invalidRange :
    (∀ (fault : Option Nat) (s : Store) (user : Nat) (st en : Int), st ≥ en →
      createAvailability fault s user (some st) (some en) = (s, .error .invalidRange)) ∧
    (∀ s : Store, Reachable s → ∀ w ∈ s.availabilities, w.startTime < w.endTime) := by
  constructor
  · intro fault s user st en h
    simp only [createAvailability, h, if_true]
  · intro s hs
    exact (reachable_inv hs).range

theorem createAvailability_invalidRange_witness :
    createAvailability none storeFree 7 (some 30) (some 30) = (storeFree, .error .invalidRange) ∧
    ((10 : Int) < 20) :=
  ⟨createAvailability_invalidRange.1 none storeFree 7 30 30 (by decide),
   createAvailability_invalidRange.2 storeFree
     (Reachable.createWindow 7 (some 10) (some 20) Reachable.empty)
     { _id := 0, professor := 7, startTime := 10, endTime := 20, isBooked := false,
       bookedBy := none }
     (by decide)⟩

/-! ## Deleting a slot -/

/-- C11: `deleteAvailability` answers NotFound when no slot has both the id
and the caller as professor, otherwise WindowBooked when the slot found is
booked, each time leaving the store as it was; otherwise it succeeds, the
slot with that id is gone, every slot with another id is kept in its place
and unchanged, and the appointments and the id counter are as before. When
ids are unique the collection loses the slot found and nothing else. -/
theorem deleteAvailability_cases (s : Store) (user id : Nat) :
    ((∀ w ∈ s.availabilities, w._id = id → w.professor ≠ user) →
      deleteAvailability none s user id = (s, .error .slotNotFound)) ∧
    (∀ w, s.availabilities.find?
        (fun v => decide (v._id = id) && decide (v.professor = user)) = some w →
      w ∈ s.availabilities ∧ w._id = id ∧ w.professor = user ∧
      (w.isBooked = true → deleteAvailability none s user id = (s, .error .windowBooked)) ∧
      (w.isBooked = false →
        (deleteAvailability none s user id).2 = .ok () ∧
        (∀ v, v ∈ (deleteAvailability none s user id).1.availabilities ↔
          v ∈ s.availabilities ∧ v._id ≠ id) ∧
        (deleteAvailability none s user id).1.availabilities.Sublist s.availabilities ∧
        (deleteAvailability none s user id).1.appointments = s.appointments ∧
        (deleteAvailability none s user id).1.nextId = s.nextId ∧
        ((s.availabilities.map (fun v => v._id)).Nodup →
          (deleteAvailability none s user id).1.availabilities = s.availabilities.erase w))) ∧
    ((∃ w ∈ s.availabilities, w._id = id ∧ w.professor = user) →
      ∃ w, s.availabilities.find?
        (fun v => decide (v._id = id) && decide (v.professor = user)) = some w) := by
  refine ⟨?_, ?_, ?_⟩
  · intro hall
    have hf : s.availabilities.find?
        (fun v => decide (v._id = id) && decide (v.professor = user)) = none := by
      rw [List.find?_eq_none]
      intro w hw
      by_cases e : w._id = id
      · simp [e, hall w hw e]
      · simp [e]
    simp only [deleteAvailability, hf, reduceCtorEq, if_false]
  · intro w hf
    have hwm := List.mem_of_find?_eq_some hf
    have hq := List.find?_some hf
    simp only [Bool.and_eq_true, decide_eq_true_eq] at hq
    refine ⟨hwm, hq.1, hq.2, ?_, ?_⟩
    · intro hb
      simp only [deleteAvailability, hf, hb, reduceCtorEq, if_false, if_true]
    · intro hb
      have hres : deleteAvailability none s user id =
          ({ s with availabilities := Availability.findByIdAndDelete s.availabilities id },
            .ok ()) := by
        simp only [deleteAvailability, hf, hb, reduceCtorEq, if_false, Bool.false_eq_true]
      rw [hres]
      refine ⟨rfl, ?_, List.filter_sublist _, rfl, rfl, ?_⟩
      · intro v
        simp [Availability.findByIdAndDelete, List.mem_filter]
      · intro hnd
        show Availability.findByIdAndDelete s.availabilities id = s.availabilities.erase w
        unfold Availability.findByIdAndDelete
        have hnd2 : s.availabilities.Nodup := List.Nodup.of_map _ hnd
        rw [hnd2.erase_eq_filter]
        apply List.filter_congr
        intro v hv
        by_cases e : v = w
        · subst e
          simp [hq.1]
        · have : v._id ≠ id := by
            intro h2
            exact e (List.inj_on_of_nodup_map hnd hv hwm (h2.trans hq.1.symm))
          simp [e, this]
  · rintro ⟨w, hw, hid, hp⟩
    cases hf : s.availabilities.find?
        (fun v => decide (v._id = id) && decide (v.professor = user)) with
    | some v => exact ⟨v, rfl⟩
    | none =>
      have := List.find?_eq_none.mp hf w hw
      simp [hid, hp] at this

theorem deleteAvailability_cases_witness :
    deleteAvailability none storeFree 8 0 = (storeFree, .error .slotNotFound) ∧
    deleteAvailability none storeFree 7 4 = (storeFree, .error .slotNotFound) ∧
    deleteAvailability none storeBooked 7 0 = (storeBooked, .error .windowBooked) ∧
    (deleteAvailability none storeTwoSlots 7 0).2 = .ok () ∧
    (deleteAvailability none storeTwoSlots 7 0).1.availabilities =
      storeTwoSlots.availabilities.erase
        { _id := 0, professor := 7, startTime := 10, endTime := 20, isBooked := false,
          bookedBy := none } :=
  ⟨(deleteAvailability_cases storeFree 8 0).1 (by decide),
   (deleteAvailability_cases storeFree 7 4).1 (by decide),
   ((deleteAvailability_cases storeBooked 7 0).2.1
     { _id := 0, professor := 7, startTime := 10, endTime := 20, isBooked := true,
       bookedBy := some 3 } (by decide)).2.2.2.1 rfl,
   (((deleteAvailability_cases storeTwoSlots 7 0).2.1
     { _id := 0, professor := 7, startTime := 10, endTime := 20, isBooked := false,
       bookedBy := none } (by decide)).2.2.2.2 rfl).1,
   (((deleteAvailability_cases storeTwoSlots 7 0).2.1
     { _id := 0, professor := 7, startTime := 10, endTime := 20, isBooked := false,
       bookedBy := none } (by decide)).2.2.2.2 rfl).2.2.2.2.2 (by decide)⟩

/-! ## Listing -/

/-- C13: `getProfessorAvailability` answers with exactly the slots of the
store that belong to the professor, are free and start strictly after the
clock, each as many times as the collection holds it, ordered by `startTime`
ascending; a slot starting at the clock value, a booked slot and a slot of
another professor are never in the answer. -/
theorem getProfessorAvailability_spec (s : Store) (professorId : Nat) (now : Int) :
    ∃ l, getProfessorAvailability none s professorId now = (s, .ok l) ∧
      (∀ w, w ∈ l ↔ w ∈ s.availabilities ∧ w.professor = professorId ∧
        w.isBooked = false ∧ now < w.startTime) ∧
      l.Perm (s.availabilities.filter (fun w =>
        decide (w.professor = professorId) && decide (w.isBooked = false)
          && decide (w.startTime > now))) ∧
      l.Pairwise (fun w1 w2 => w1.startTime ≤ w2.startTime) ∧
      (∀ w ∈ l, w.startTime ≠ now ∧ w.isBooked ≠ true ∧ w.professor = professorId) := by
  have hperm := List.perm_insertionSort startTimeAscending
    (s.availabilities.filter (fun w =>
      decide (w.professor = professorId) && decide (w.isBooked = false)
        && decide (w.startTime > now)))
  have hmem : ∀ w, w ∈ (s.availabilities.filter (fun w =>
      decide (w.professor = professorId) && decide (w.isBooked = false)
        && decide (w.startTime > now))).insertionSort startTimeAscending ↔
      w ∈ s.availabilities ∧ w.professor = professorId ∧
        w.isBooked = false ∧ now < w.startTime := by
    intro w
    rw [hperm.mem_iff, List.mem_filter]
    simp only [Bool.and_eq_true, decide_eq_true_eq, gt_iff_lt]
    tauto
  haveI : IsTotal Availability startTimeAscending :=
    ⟨fun a b => le_total a.startTime b.startTime⟩
  haveI : IsTrans Availability startTimeAscending :=
    ⟨fun a b c hab hbc => le_trans (α := Int) hab hbc⟩
  refine ⟨_, ?_, hmem, hperm, ?_, ?_⟩
  · simp only [getProfessorAvailability, reduceCtorEq, if_false]
  · exact List.sorted_insertionSort startTimeAscending _
  · intro w hw
    obtain ⟨-, hp, hb, hn⟩ := (hmem w).mp hw
    exact ⟨ne_of_gt hn, by simp [hb], hp⟩

theorem getProfessorAvailability_spec_witness :
    ∃ l, getProfessorAvailability none storeTwoSlots 7 10 = (storeTwoSlots, .ok l) ∧
      (∀ w, w ∈ l ↔ w ∈ storeTwoSlots.availabilities ∧ w.professor = 7 ∧
        w.isBooked = false ∧ 10 < w.startTime) ∧
      l.Perm (storeTwoSlots.availabilities.filter (fun w =>
        decide (w.professor = 7) && decide (w.isBooked = false)
          && decide (w.startTime > 10))) ∧
      l.Pairwise (fun w1 w2 => w1.startTime ≤ w2.startTime) ∧
      (∀ w ∈ l, w.startTime ≠ 10 ∧ w.isBooked ≠ true ∧ w.professor = 7) :=
  getProfessorAvailability_spec storeTwoSlots 7 10

/-- C12: when `cancelAppointment` succeeds in a reachable store, the list
`getStudentAppointments` gives the student of that appointment afterwards
still holds the appointment, now cancelled, and holds no scheduled
appointment with its id; the appointment was in the store before, scheduled
and otherwise the same. When the student had no other appointment the list is
that one cancelled appointment: no scheduled entry and one cancelled entry. -/
theorem cancelled_still_listed (s s2 : Store) (hs : Reachable s) (user id : Nat)
    (reason : Option String) (a2 : Appointment)
    (h : cancelAppointment none s user id reason = (s2, .ok a2)) :
    ∃ l, getStudentAppointments none s2 a2.student = (s2, .ok l) ∧
      a2 ∈ l ∧ a2._id = id ∧ a2.status = Status.cancelled ∧
      (∃ a ∈ s.appointments, a.status = Status.scheduled ∧
        a2 = { a with status := Status.cancelled, cancelledBy := a2.cancelledBy,
                      cancellationReason := a2.cancellationReason }) ∧
      (∀ b ∈ l, b._id = id → b.status ≠ Status.scheduled) ∧
      (∀ b, b ∈ l ↔ b ∈ s2.appointments ∧ b.student = a2.student) ∧
      l.Pairwise (fun b1 b2 => b2.appointmentTime ≤ b1.appointmentTime) ∧
      ((∀ b ∈ s.appointments, b.student = a2.student → b._id = id) →
        l = [a2] ∧
        (l.filter (fun b => decide (b.status = Status.scheduled))).length = 0 ∧
        (l.filter (fun b => decide (b.status = Status.cancelled))).length = 1) := by
  have hinv := reachable_inv hs
  cases hf : s.appointments.find? (cancelQuery id user) with
  | none =>
    simp [cancelAppointment, hf] at h
  | some a0 =>
    obtain ⟨ha0, hid, -, hst⟩ := cancelQuery_some hf
    have hres := cancelAppointment_of_found none reason hf (by simp) (by simp)
    simp only [reduceCtorEq, if_false] at hres
    rw [hres] at h
    simp only [Prod.mk.injEq, Except.ok.injEq] at h
    obtain ⟨hs2, ha2⟩ := h
    subst hs2 ha2
    have hperm := List.perm_insertionSort appointmentTimeDescending
      ((Appointment.setCancelled s.appointments a0._id user (reasonOrDefault reason)).filter
        (fun a => decide (a.student = a0.student)))
    have hin :
        ({ a0 with
            status := Status.cancelled, cancelledBy := some user,
            cancellationReason := some (reasonOrDefault reason) } : Appointment) ∈
        Appointment.setCancelled s.appointments a0._id user (reasonOrDefault reason) := by
      unfold Appointment.setCancelled
      refine List.mem_map.mpr ⟨a0, ha0, ?_⟩
      simp
    have hmem : ∀ b, b ∈ ((Appointment.setCancelled s.appointments a0._id user
        (reasonOrDefault reason)).filter
          (fun a => decide (a.student = a0.student))).insertionSort appointmentTimeDescending ↔
        b ∈ Appointment.setCancelled s.appointments a0._id user (reasonOrDefault reason) ∧
          b.student = a0.student := by
      intro b
      rw [hperm.mem_iff, List.mem_filter]
      simp
    haveI : IsTotal Appointment appointmentTimeDescending :=
      ⟨fun a b => le_total b.appointmentTime a.appointmentTime⟩
    haveI : IsTrans Appointment appointmentTimeDescending :=
      ⟨fun a b c hab hbc => le_trans (α := Int) hbc hab⟩
    refine ⟨_, ?_, ?_, hid, rfl, ⟨a0, ha0, hst, rfl⟩, ?_, hmem, ?_, ?_⟩
    · simp only [getStudentAppointments, reduceCtorEq, if_false]
    · exact (hmem _).mpr ⟨hin, rfl⟩
    · intro b hb hbid
      obtain ⟨c, _, rfl⟩ := mem_setCancelled ((hmem b).mp hb).1
      by_cases e : c._id = a0._id
      · simp [e]
      · simp only [e, if_false] at hbid
        exact absurd (hbid.trans hid.symm) e
    · exact List.sorted_insertionSort appointmentTimeDescending _
    · intro honly
      have hfilter : (Appointment.setCancelled s.appointments a0._id user
          (reasonOrDefault reason)).filter (fun a => decide (a.student = a0.student)) =
          [{ a0 with status := Status.cancelled, cancelledBy := some user,
                     cancellationReason := some (reasonOrDefault reason) }] := by
        have hnd : (Appointment.setCancelled s.appointments a0._id user
            (reasonOrDefault reason)).Nodup := by
          apply List.Nodup.of_map (fun a => a._id)
          rw [setCancelled_ids]
          exact hinv.apptNodup
        have hnd2 := hnd.filter (fun a => decide (a.student = a0.student))
        rw [← List.perm_singleton, List.perm_ext_iff_of_nodup hnd2 (List.nodup_singleton _)]
        intro b
        rw [List.mem_filter, List.mem_singleton]
        constructor
        · rintro ⟨hb, hbs⟩
          obtain ⟨c, hc, rfl⟩ := mem_setCancelled hb
          have hcs : c.student = a0.student := by
            by_cases e : c._id = a0._id
            · simpa [e] using hbs
            · simpa [e] using hbs
          have hcid : c._id = a0._id := (honly c hc hcs).trans hid.symm
          have hca : c = a0 := List.inj_on_of_nodup_map hinv.apptNodup hc ha0 hcid
          subst hca
          simp
        · intro hb
          subst hb
          exact ⟨hin, by simp⟩
      simp only [hfilter, List.insertionSort, List.orderedInsert]
      simp

theorem cancelled_still_listed_witness :
    ∃ l, getStudentAppointments none storeCancelled 3 = (storeCancelled, .ok l) ∧
      l = [{ _id := 1, student := 3, professor := 7, availabilitySlot := 0,
             appointmentTime := 10, status := Status.cancelled, cancelledBy := some 7,
             cancellationReason := some "Emergency meeting" }] ∧
      (l.filter (fun b => decide (b.status = Status.scheduled))).length = 0 ∧
      (l.filter (fun b => decide (b.status = Status.cancelled))).length = 1 :=
  have h := cancelled_still_listed storeBooked storeCancelled
    (Reachable.book 3 (some 0) 5 (Reachable.createWindow 7 (some 10) (some 20) Reachable.empty))
    7 1 (some "Emergency meeting")
    { _id := 1, student := 3, professor := 7, availabilitySlot := 0,
      appointmentTime := 10, status := Status.cancelled, cancelledBy := some 7,
      cancellationReason := some "Emergency meeting" }
    (by decide)
  h.imp fun _ hl => ⟨hl.1, (hl.2.2.2.2.2.2.2.2 (by decide)).1,
    (hl.2.2.2.2.2.2.2.2 (by decide)).2.1, (hl.2.2.2.2.2.2.2.2 (by decide)).2.2⟩

end CollegeAppointment
